import Mathlib

/-!
Verification of the Playerok star bot, `Stars.py`.

A shallow embedding in Lean 4 of the Playerok star-selling bot
(`Stars.py`): the file-backed state store (`FileManager`), the
retry/backoff API client (`PlayerokAPI`), the per-thread monitor
(`ChatMonitor.start`: attach-replay and poll-diffing), the per-buyer
fulfillment state machine (`ChatMonitor.handle` and its
recipient-waiting loop), and the supervisor teardown pass of
`main_loop`.

Modelling conventions:
* Python dicts backing the JSON state files become association lists
  keyed by buyer (or buyer × kind); a mutator conses a fresh binding and
  drops the old one, matching dict assignment plus whole-file rewrite.
* `asyncio` side effects (HTTP attempts, page reads, clicks, sleeps)
  become oracles passed in as functions, and ghost trace fields record
  the outbound calls the code makes.
* Exceptions raised by `aiohttp`/`json` are modelled by a `raises` flag
  on each oracle attempt; the `try/except` in the source catches them,
  which the embedding renders by branching on the flag and continuing.
* `hashlib.sha256(...).hexdigest()` is an opaque parameter
  `hash : String → String`: nothing below depends on more than it being
  a function of the observed text.
* `str.lower()` is modelled on the alphabets the program actually
  meets: ASCII letters and the Russian block (А..Я, Ё).
-/

/-! ## Durable state store (`FileManager`) -/

/-- Overwrite the binding of `k` in an association list, as Python dict
assignment does (`self.chat_states[buyer] = count`). -/
def updA {β : Type} (l : List (String × β)) (k : String) (v : β) :
    List (String × β) :=
  (k, v) :: l.filter (fun p => p.1 ≠ k)

/-- The three persisted maps owned by `FileManager`: `chat_states.json`
(per-buyer event counts), `buyer_states.json` (per-buyer waiting flags),
and the `last_messages/last_{kind}_message_id_{buyer}.txt` fingerprint
files, keyed by `(buyer, kind)` and here flattened to a single key. -/
structure FM where
  chat_states : List (String × Nat)
  buyer_states : List (String × Bool)
  last_files : List (String × String)
deriving DecidableEq

/-- Key of the fingerprint file for `(buyer, kind)` (the file name
`last_{kind}_message_id_{buyer}.txt`). -/
def lastKey (buyer kind : String) : String :=
  "last_" ++ kind ++ "_message_id_" ++ buyer ++ ".txt"

/-- Embeds `FileManager.get_last_count`: `self.chat_states.get(buyer, 0)`. -/
def get_last_count (fm : FM) (buyer : String) : Nat :=
  ((fm.chat_states.find? (fun p => p.1 = buyer)).map Prod.snd).getD 0

/-- Embeds `FileManager.set_last_count`: assign and rewrite the file. -/
def set_last_count (fm : FM) (buyer : String) (count : Nat) : FM :=
  { fm with chat_states := updA fm.chat_states buyer count }

/-- Embeds `FileManager.is_waiting`: `self.buyer_states.get(buyer, False)`. -/
def is_waiting (fm : FM) (buyer : String) : Bool :=
  ((fm.buyer_states.find? (fun p => p.1 = buyer)).map Prod.snd).getD false

/-- Embeds `FileManager.set_waiting`: assign and rewrite the file. -/
def set_waiting (fm : FM) (buyer : String) (flag : Bool) : FM :=
  { fm with buyer_states := updA fm.buyer_states buyer flag }

/-- Embeds `FileManager.get_last`: read the fingerprint file if it exists. -/
def get_last (fm : FM) (buyer kind : String) : Option String :=
  (fm.last_files.find? (fun p => p.1 = lastKey buyer kind)).map Prod.snd

/-- Embeds `FileManager.set_last`: write the fingerprint file. -/
def set_last (fm : FM) (buyer kind msg_id : String) : FM :=
  { fm with last_files :=
      (lastKey buyer kind, msg_id) ::
        fm.last_files.filter (fun p => p.1 ≠ lastKey buyer kind) }

theorem get_last_count_set_self (fm : FM) (b : String) (n : Nat) :
    get_last_count (set_last_count fm b n) b = n := by
  simp [get_last_count, set_last_count, updA, List.find?]

theorem is_waiting_set_self (fm : FM) (b : String) (f : Bool) :
    is_waiting (set_waiting fm b f) b = f := by
  simp [is_waiting, set_waiting, updA, List.find?]

theorem get_last_set_self (fm : FM) (b k v : String) :
    get_last (set_last fm b k v) b k = some v := by
  simp [get_last, set_last, List.find?]

/-! ## Text normalization and pattern matching (`ChatMonitor.handle`) -/

/-- Python `str.lower()` restricted to the alphabets the program meets:
ASCII `A`–`Z`, Cyrillic `А`–`Я` (U+0410–U+042F shift by 0x20), and
`Ё` (U+0401 → U+0451). Other characters are unchanged. -/
def pyLowerChar (c : Char) : Char :=
  if 65 ≤ c.toNat ∧ c.toNat ≤ 90 then Char.ofNat (c.toNat + 32)
  else if 0x410 ≤ c.toNat ∧ c.toNat ≤ 0x42F then Char.ofNat (c.toNat + 32)
  else if c.toNat = 0x401 then Char.ofNat 0x451
  else c

/-- Normalization `sys_text.lower().replace(..)` from `handle`: lower-case
and map `ё` to `е`. -/
def normalizeText (s : String) : String :=
  ⟨(s.data.map pyLowerChar).map (fun c => if c = 'ё' then 'е' else c)⟩

/-- Python substring containment `needle in hay`. -/
def containsSub (hay needle : List Char) : Bool :=
  match hay with
  | [] => needle.isEmpty
  | _ :: t => needle.isPrefixOf hay || containsSub t needle

/-- The payment-confirmation phrase tested by `handle`. -/
def paymentPhrase : String := "оплатил покупку"

/-- Python `\s` on the ASCII whitespace the program meets. -/
def isPySpace (c : Char) : Bool :=
  c = ' ' || c = '\t' || c = '\n' || c.toNat = 13 || c.toNat = 11 || c.toNat = 12

/-- Digits of a decimal literal to its value (`int(match.group(1))`). -/
def digitsToNat (ds : List Char) : Nat :=
  ds.foldl (fun n c => n * 10 + (c.toNat - 48)) 0

/-- Try to match `(\d+)\s*звезд` anchored at the head of `cs`: a maximal
run of digits, optional whitespace, then the literal `звезд`.  Maximal
munch agrees with the regex because a digit can continue neither `\s*`
nor `звезд`. -/
def matchQtyAt (cs : List Char) : Option Nat :=
  let ds := cs.takeWhile Char.isDigit
  let rest := (cs.dropWhile Char.isDigit).dropWhile isPySpace
  if ds.isEmpty then none
  else if "звезд".data.isPrefixOf rest then some (digitsToNat ds) else none

/-- Python `v.startswith(pre)` on characters. -/
def pyStartsWith (v pre : String) : Bool := pre.data.isPrefixOf v.data

/-- Python slice `v[1:]` on characters. -/
def pyDrop1 (v : String) : String := ⟨v.data.drop 1⟩

/-- Embeds `re.search` of the quantity pattern: leftmost match wins. -/
def searchStars : List Char → Option Nat
  | [] => none
  | c :: rest =>
    match matchQtyAt (c :: rest) with
    | some n => some n
    | none => searchStars rest

/-! ## Resilient API client (`PlayerokAPI`) -/

/-- Retry count `API_RETRY_ATTEMPTS` from the configuration block. -/
def API_RETRY_ATTEMPTS : Nat := 3

/-- Exponential-backoff base `API_BACKOFF_FACTOR`. -/
def API_BACKOFF_FACTOR : Nat := 2

/-- One observable event of an API call: an attempt (with its success)
or a sleep of a given duration in seconds. -/
inductive ApiEv
  | att (ok : Bool)
  | slp (d : Nat)
deriving DecidableEq

/-- Outcome of one `send_message` attempt as seen from the code: whether
`session.post` (or anything in the `try` body) raised, and otherwise the
HTTP status of the response. -/
structure SendAttempt where
  raises : Bool
  status : Nat
deriving DecidableEq

/-- Relevant content of a `buy_stars` response body (`data`): the
truthiness of `data.get('success')` and the value of
`data.get('transaction_hash')`. -/
structure PData where
  successFlag : Bool
  transaction_hash : Option String
deriving DecidableEq

/-- The empty dict `{}` returned by `buy_stars` on exhaustion. -/
def emptyPData : PData := ⟨false, none⟩

/-- Outcome of one `buy_stars` attempt: whether `post`/`json` raised,
otherwise the HTTP status and parsed body. -/
structure BuyAttempt where
  raises : Bool
  status : Nat
  body : PData
deriving DecidableEq

/-- The retry loop of `PlayerokAPI.send_message`, attempt counter `n`
running `1, 2, …`: on a non-raising 200 response return `True`;
otherwise log, sleep `API_BACKOFF_FACTOR ** (n - 1)` seconds and retry.
Returns the result together with the event trace. -/
def sendLoop (atts : Nat → SendAttempt) : Nat → Nat → Bool × List ApiEv
  | 0, _ => (false, [])
  | fuel + 1, n =>
    if (atts n).raises = false ∧ (atts n).status = 200 then
      (true, [.att true])
    else
      let rest := sendLoop atts fuel (n + 1)
      (rest.1, .att false :: .slp (API_BACKOFF_FACTOR ^ (n - 1)) :: rest.2)

/-- Embeds `PlayerokAPI.send_message` driven by an oracle of attempt
outcomes. -/
def send_message (atts : Nat → SendAttempt) : Bool × List ApiEv :=
  sendLoop atts API_RETRY_ATTEMPTS 1

/-- The retry loop of `PlayerokAPI.buy_stars`: success needs a
non-raising attempt with status 200 and a truthy `success` field, and
then the body is returned; otherwise log, sleep, retry; on exhaustion
`(False, \x7b\x7d)`. -/
def buyLoop (atts : Nat → BuyAttempt) :
    Nat → Nat → (Bool × PData) × List ApiEv
  | 0, _ => ((false, emptyPData), [])
  | fuel + 1, n =>
    if (atts n).raises = false ∧ (atts n).status = 200 ∧
        (atts n).body.successFlag = true then
      ((true, (atts n).body), [.att true])
    else
      let rest := buyLoop atts fuel (n + 1)
      (rest.1, .att false :: .slp (API_BACKOFF_FACTOR ^ (n - 1)) :: rest.2)

/-- Embeds `PlayerokAPI.buy_stars` driven by an oracle of attempt
outcomes. -/
def buy_stars (atts : Nat → BuyAttempt) : (Bool × PData) × List ApiEv :=
  buyLoop atts API_RETRY_ATTEMPTS 1

/-- Whether some later event of the trace is an attempt. -/
def hasLaterAttempt : List ApiEv → Bool
  | [] => false
  | .att _ :: _ => true
  | _ :: r => hasLaterAttempt r

/-- Durations of the sleeps that separate two attempts (a sleep after
the final attempt is not between attempts). -/
def sleepsBetween : List ApiEv → List Nat
  | [] => []
  | .slp d :: r => if hasLaterAttempt r then d :: sleepsBetween r else sleepsBetween r
  | _ :: r => sleepsBetween r

/-- Durations of every sleep of the trace. -/
def allSleeps : List ApiEv → List Nat
  | [] => []
  | .slp d :: r => d :: allSleeps r
  | _ :: r => allSleeps r

/-- A `send_message` attempt that the code treats as failed. -/
def sendAttemptFails (a : SendAttempt) : Prop :=
  a.raises = true ∨ a.status ≠ 200

/-- A `buy_stars` attempt that the code treats as failed. -/
def buyAttemptFails (a : BuyAttempt) : Prop :=
  a.raises = true ∨ a.status ≠ 200 ∨ a.body.successFlag = false

instance (a : SendAttempt) : Decidable (sendAttemptFails a) := by
  unfold sendAttemptFails; infer_instance

instance (a : BuyAttempt) : Decidable (buyAttemptFails a) := by
  unfold buyAttemptFails; infer_instance

/-! ## Buyer fulfillment state machine (`ChatMonitor.handle`) -/

/-- In-memory and durable state visible to `handle`, plus ghost traces
of the outbound calls it makes: `buys` records the arguments of every
`buy_stars` call, `sent` the arguments of every `send_message` call, and
`clicks` the outcome of each caught post-purchase confirmation workflow
(`False` when one of its page-driver steps raised). -/
structure HState where
  fm : FM
  payment_pending : Bool
  buys : List (String × Nat)
  sent : List (String × String)
  clicks : List Bool
deriving DecidableEq

/-- Environment of one `handle` run: `reads i` is the text of
`user_elems[-1]` at poll iteration `i` of the waiting loop (`none` when
`user_elems` is empty); `buyOutcome c` is the result of the
`c`-th `buy_stars` call, as the pair `(ok, data.get('transaction_hash'))`;
`clickOk c` tells whether the post-purchase click sequence after the
`c`-th successful purchase completed without raising. -/
structure WaitEnv where
  reads : Nat → Option String
  buyOutcome : Nat → Bool × Option String
  clickOk : Nat → Bool

/-- Result of `handle`: returned before the waiting loop, returned from
the purchase-success branch, exited because the `while` condition became
false, or still looping when the fuel ran out (the real loop would keep
polling). -/
inductive HandleOut
  | pre (s : HState)
  | completed (s : HState)
  | condExit (s : HState)
  | fuelOut (s : HState)
deriving DecidableEq

/-- The state carried by a `handle` result. -/
def HandleOut.state : HandleOut → HState
  | .pre s => s
  | .completed s => s
  | .condExit s => s
  | .fuelOut s => s

/-- Whether a `handle` result is the purchase-success return. -/
def HandleOut.isCompleted : HandleOut → Bool
  | .completed _ => true
  | _ => false

/-- Python `str(x)` of an optional field, as `data.get(..)` prints. -/
def pyShow : Option String → String
  | some s => s
  | none => "None"

/-- The message requesting a Telegram username for `stars` stars. -/
def requestMsg (stars : Nat) : String :=
  "Пожалуйста, отправьте Telegram username в формате @username для получения "
    ++ toString stars ++ " звёзд."

/-- The malformed-identifier reply. -/
def formatErrMsg : String :=
  "Неверный формат. Пожалуйста, отправьте Telegram username в формате @username."

/-- The completion message: names the quantity, the recipient and the
transaction hash from the purchase payload. -/
def completionMsg (stars : Nat) (telegram : String) (tx : Option String) :
    String :=
  "⭐ Заказ выполнен: " ++ toString stars ++ " звёзд отправлены на @"
    ++ telegram ++ ". Hash: " ++ pyShow tx

/-- The recipient-waiting loop of `handle`
(`while self.fm.is_waiting(self.buyer): ...`), with poll iteration
counter `i` and fuel bounding how many iterations are unrolled.  Each
iteration reads the last recipient-field element; an unchanged
fingerprint is skipped; a changed one is stored (as the hash, never the
raw text); a value without the `@` sigil gets a format-error message; a
value with it is stripped and purchased, and on purchase success the
caught confirmation workflow runs, the completion message is sent, the
waiting flag is cleared and the loop returns. -/
def waitLoop (hash : String → String) (buyer : String) (stars : Nat)
    (env : WaitEnv) : Nat → Nat → HState → HandleOut
  | 0, _, s => .fuelOut s
  | fuel + 1, i, s =>
    if is_waiting s.fm buyer then
      match env.reads i with
      | none => waitLoop hash buyer stars env fuel (i + 1) s
      | some v =>
        let uid := hash v
        if get_last s.fm buyer "user" = some uid then
          waitLoop hash buyer stars env fuel (i + 1) s
        else
          let s1 : HState := { s with fm := set_last s.fm buyer "user" uid }
          if pyStartsWith v "@" then
            let telegram := pyDrop1 v
            let od := env.buyOutcome s1.buys.length
            let s2 : HState := { s1 with buys := s1.buys ++ [(telegram, stars)] }
            if od.1 then
              let s3 : HState :=
                { s2 with clicks := s2.clicks ++ [env.clickOk s2.clicks.length] }
              .completed
                { s3 with
                  sent := s3.sent ++ [(buyer, completionMsg stars telegram od.2)],
                  fm := set_waiting s3.fm buyer false }
            else
              waitLoop hash buyer stars env fuel (i + 1) s2
          else
            waitLoop hash buyer stars env fuel (i + 1)
              { s1 with sent := s1.sent ++ [(buyer, formatErrMsg)] }
    else .condExit s

/-- Embeds `ChatMonitor.handle` for one event line `sys_text`: normalize
the text; a line containing the payment phrase records the pending
payment and returns; a quantity match with a pending payment clears the
pending flag, requests a username, sets the waiting flag and enters the
waiting loop; anything else returns unchanged. -/
def handle (hash : String → String) (buyer : String) (env : WaitEnv)
    (fuel : Nat) (sys_text : String) (s : HState) : HandleOut :=
  let normalized := normalizeText sys_text
  if containsSub normalized.data paymentPhrase.data then
    .pre { s with payment_pending := true }
  else
    match searchStars normalized.data with
    | none => .pre s
    | some stars =>
      if s.payment_pending = false then .pre s
      else
        let s1 : HState := { s with payment_pending := false }
        let s2 : HState := { s1 with sent := s1.sent ++ [(buyer, requestMsg stars)] }
        let s3 : HState := { s2 with fm := set_waiting s2.fm buyer true }
        waitLoop hash buyer stars env fuel 0 s3

/-! ## Thread monitor (`ChatMonitor.start`) -/

/-- Python slice `xs[a:]`. -/
def pySliceFrom {α : Type} (xs : List α) (a : Nat) : List α := xs.drop a

/-- Python slice `xs[a:b]`. -/
def pySlice {α : Type} (xs : List α) (a b : Nat) : List α :=
  (xs.take b).drop a

/-- State of one `ChatMonitor` around its `start` loop, generic in the
machine state `σ` threaded through `handle` (kept abstract here so the
attach/poll structure can be studied for any step): the shared
`FileManager` state, the in-memory `self.last_count`, the machine state,
and a ghost log of every text fed through `handle`. -/
structure MonitorSt (σ : Type) where
  fm : FM
  lastCount : Nat
  mach : σ
  fed : List String
deriving DecidableEq

/-- Feed event texts one by one through the state-machine step, in
order, appending each to the ghost log (the
`for elem in ...: await self.handle(...)` loops of `start`). -/
def feedSteps {σ : Type} (step : String → FM × σ → FM × σ) :
    List String → FM × σ → List String → (FM × σ) × List String
  | [], ms, log => (ms, log)
  | t :: ts, ms, log => feedSteps step ts (step t ms) (log ++ [t])

/-- The attach branch of `ChatMonitor.start`: read the current element
list, skip the persisted count, feed the suffix through the machine,
then record and persist the new length. -/
def attach {σ : Type} (step : String → FM × σ → FM × σ) (buyer : String)
    (current : List String) (s : MonitorSt σ) : MonitorSt σ :=
  let saved := get_last_count s.fm buyer
  let r := feedSteps step (pySliceFrom current saved) (s.fm, s.mach) []
  let n := current.length
  { fm := set_last_count r.1.1 buyer n
    lastCount := n
    mach := r.1.2
    fed := s.fed ++ r.2 }

/-- The polling branch of `ChatMonitor.start`: re-read the element list
and, only if it grew beyond the in-memory `self.last_count`, feed the
new suffix `elems[self.last_count:new_len]` and persist the new
length. -/
def poll {σ : Type} (step : String → FM × σ → FM × σ) (buyer : String)
    (elems : List String) (s : MonitorSt σ) : MonitorSt σ :=
  let newLen := elems.length
  if s.lastCount < newLen then
    let r := feedSteps step (pySlice elems s.lastCount newLen) (s.fm, s.mach) []
    { fm := set_last_count r.1.1 buyer newLen
      lastCount := newLen
      mach := r.1.2
      fed := s.fed ++ r.2 }
  else s

/-! ## Supervisor teardown pass (`main_loop`) -/

/-- The teardown loop of one sync pass of `main_loop`
(`for buyer in list(monitors): ...`): split the monitored buyers into
the ones kept and the ones cancelled-and-removed; a buyer is cancelled
exactly when it is absent from the fresh listing and its waiting flag is
false. -/
def teardownPass (fm : FM) (current : List String) :
    List String → List String × List String
  | [] => ([], [])
  | b :: rest =>
    let r := teardownPass fm current rest
    if b ∉ current ∧ is_waiting fm b = false then (r.1, b :: r.2)
    else (b :: r.1, r.2)

/-! ## Helper lemmas -/

theorem containsSub_of_middle (pre mid post : List Char) :
    containsSub (pre ++ mid ++ post) mid = true := by
  induction pre with
  | nil =>
    cases mid with
    | nil => cases post <;> simp [containsSub]
    | cons c cs =>
      simp only [List.nil_append, containsSub, Bool.or_eq_true]
      exact Or.inl (List.isPrefixOf_iff_prefix.mpr ⟨post, rfl⟩)
  | cons a pre ih =>
    simp only [List.cons_append, containsSub, Bool.or_eq_true]
    exact Or.inr ih

theorem feedSteps_log {σ : Type} (step : String → FM × σ → FM × σ)
    (ts : List String) (ms : FM × σ) (log : List String) :
    (feedSteps step ts ms log).2 = log ++ ts := by
  induction ts generalizing ms log with
  | nil => simp [feedSteps]
  | cons t ts ih => simp [feedSteps, ih]

theorem is_waiting_set_last (fm : FM) (b k v b2 : String) :
    is_waiting (set_last fm b k v) b2 = is_waiting fm b2 := rfl

theorem chat_states_set_last (fm : FM) (b k v : String) :
    (set_last fm b k v).chat_states = fm.chat_states := rfl

theorem chat_states_set_waiting (fm : FM) (b : String) (f : Bool) :
    (set_waiting fm b f).chat_states = fm.chat_states := rfl

theorem teardownPass_fst (fm : FM) (cur : List String) (ms : List String) :
    (teardownPass fm cur ms).1 =
      ms.filter (fun b => decide (b ∈ cur) || is_waiting fm b) := by
  induction ms with
  | nil => rfl
  | cons a rest ih =>
    by_cases hc : a ∉ cur ∧ is_waiting fm a = false
    · simp [teardownPass, hc, ih, List.filter_cons, hc.1, hc.2]
    · push_neg at hc
      by_cases hm : a ∈ cur
      · simp [teardownPass, hm, ih, List.filter_cons]
      · simp [teardownPass, hm, hc hm, ih, List.filter_cons]

theorem teardownPass_snd (fm : FM) (cur : List String) (ms : List String) :
    (teardownPass fm cur ms).2 =
      ms.filter (fun b => !decide (b ∈ cur) && !is_waiting fm b) := by
  induction ms with
  | nil => rfl
  | cons a rest ih =>
    by_cases hc : a ∉ cur ∧ is_waiting fm a = false
    · simp [teardownPass, hc, ih, List.filter_cons, hc.1, hc.2]
    · push_neg at hc
      by_cases hm : a ∈ cur
      · simp [teardownPass, hm, ih, List.filter_cons]
      · simp [teardownPass, hm, hc hm, ih, List.filter_cons]

theorem sendFails_not {a : SendAttempt} (h : sendAttemptFails a) :
    ¬(a.raises = false ∧ a.status = 200) := by
  intro hc
  rcases h with h1 | h1
  · rw [h1] at hc; exact absurd hc.1 (by simp)
  · exact h1 hc.2

theorem buyFails_not {a : BuyAttempt} (h : buyAttemptFails a) :
    ¬(a.raises = false ∧ a.status = 200 ∧ a.body.successFlag = true) := by
  intro hc
  rcases h with h1 | h1 | h1
  · rw [h1] at hc; exact absurd hc.1 (by simp)
  · exact h1 hc.2.1
  · rw [h1] at hc; exact absurd hc.2.2 (by simp)

/-! ## Claim theorems -/

/-- C3: an API client call (`send_message` or `buy_stars`) whose every
attempt fails, configured with 3 attempts and backoff factor 2, sleeps
exactly 1s then 2s between attempts before returning failure (the full
sleep trace is 1s, 2s, 4s: the code also sleeps `2^2` seconds after the
final failed attempt, which separates no two attempts). -/
theorem claim_C3_backoff (atts : Nat → SendAttempt) (btts : Nat → BuyAttempt)
    (hs : ∀ n, sendAttemptFails (atts n)) (hb : ∀ n, buyAttemptFails (btts n)) :
    (send_message atts).1 = false ∧
    sleepsBetween (send_message atts).2 = [1, 2] ∧
    allSleeps (send_message atts).2 = [1, 2, 4] ∧
    (buy_stars btts).1.1 = false ∧
    sleepsBetween (buy_stars btts).2 = [1, 2] ∧
    allSleeps (buy_stars btts).2 = [1, 2, 4] := by
  have e1 : send_message atts =
      (false, [.att false, .slp 1, .att false, .slp 2, .att false, .slp 4]) := by
    simp [send_message, API_RETRY_ATTEMPTS, sendLoop, API_BACKOFF_FACTOR,
      sendFails_not (hs 1), sendFails_not (hs 2), sendFails_not (hs 3)]
  have e2 : buy_stars btts = ((false, emptyPData),
      [.att false, .slp 1, .att false, .slp 2, .att false, .slp 4]) := by
    simp [buy_stars, API_RETRY_ATTEMPTS, buyLoop, API_BACKOFF_FACTOR,
      buyFails_not (hb 1), buyFails_not (hb 2), buyFails_not (hb 3)]
  rw [e1, e2]
  decide

/-- Oracle of always-raising `send_message` attempts. -/
def failSend : Nat → SendAttempt := fun _ => ⟨true, 0⟩

/-- Oracle of always-raising `buy_stars` attempts. -/
def failBuy : Nat → BuyAttempt := fun _ => ⟨true, 0, emptyPData⟩

/-- Witness for C3 at an always-raising oracle. -/
theorem claim_C3_backoff_witness :
    (send_message failSend).1 = false ∧
    sleepsBetween (send_message failSend).2 = [1, 2] ∧
    allSleeps (send_message failSend).2 = [1, 2, 4] ∧
    (buy_stars failBuy).1.1 = false ∧
    sleepsBetween (buy_stars failBuy).2 = [1, 2] ∧
    allSleeps (buy_stars failBuy).2 = [1, 2, 4] :=
  claim_C3_backoff failSend failBuy (fun _ => Or.inl rfl) (fun _ => Or.inl rfl)

/-- C6: `buy_stars` returns `(true, payload)` only when some attempt got
HTTP 200 and a truthy `success` field (and then the payload is that
attempt's body); when all 3 attempts fail it returns `(false, \x7b\x7d)`;
`send_message` likewise returns `false` on exhaustion.  Raised transport
errors are modelled by the caught `raises` flag, so both functions
return a value on every input instead of propagating an exception. -/
theorem claim_C6_api_results (btts : Nat → BuyAttempt) (atts : Nat → SendAttempt) :
    ((buy_stars btts).1.1 = true →
      ∃ n, 1 ≤ n ∧ n ≤ API_RETRY_ATTEMPTS ∧ (btts n).raises = false ∧
        (btts n).status = 200 ∧ (btts n).body.successFlag = true ∧
        (buy_stars btts).1.2 = (btts n).body) ∧
    ((∀ n, buyAttemptFails (btts n)) → (buy_stars btts).1 = (false, emptyPData)) ∧
    ((∀ n, sendAttemptFails (atts n)) → (send_message atts).1 = false) := by
  refine ⟨?_, ?_, ?_⟩
  · by_cases c1 : (btts 1).raises = false ∧ (btts 1).status = 200 ∧
        (btts 1).body.successFlag = true
    · intro _
      exact ⟨1, le_refl 1, by norm_num [API_RETRY_ATTEMPTS], c1.1, c1.2.1, c1.2.2,
        by simp [buy_stars, API_RETRY_ATTEMPTS, buyLoop, c1]⟩
    · by_cases c2 : (btts 2).raises = false ∧ (btts 2).status = 200 ∧
          (btts 2).body.successFlag = true
      · intro _
        exact ⟨2, by norm_num, by norm_num [API_RETRY_ATTEMPTS], c2.1, c2.2.1, c2.2.2,
          by simp [buy_stars, API_RETRY_ATTEMPTS, buyLoop, c1, c2]⟩
      · by_cases c3 : (btts 3).raises = false ∧ (btts 3).status = 200 ∧
            (btts 3).body.successFlag = true
        · intro _
          exact ⟨3, by norm_num, by norm_num [API_RETRY_ATTEMPTS], c3.1, c3.2.1, c3.2.2,
            by simp [buy_stars, API_RETRY_ATTEMPTS, buyLoop, c1, c2, c3]⟩
        · intro h
          exact absurd h (by simp [buy_stars, API_RETRY_ATTEMPTS, buyLoop, c1, c2, c3])
  · intro hb
    simp [buy_stars, API_RETRY_ATTEMPTS, buyLoop,
      buyFails_not (hb 1), buyFails_not (hb 2), buyFails_not (hb 3)]
  · intro hs
    simp [send_message, API_RETRY_ATTEMPTS, sendLoop,
      sendFails_not (hs 1), sendFails_not (hs 2), sendFails_not (hs 3)]

/-- Oracle whose second `buy_stars` attempt succeeds. -/
def okBuy2 : Nat → BuyAttempt :=
  fun n => if n = 2 then ⟨false, 200, ⟨true, some "abc"⟩⟩ else ⟨true, 0, emptyPData⟩

/-- Witness for C6: a success on attempt 2 and the all-fail oracles. -/
theorem claim_C6_api_results_witness :
    (∃ n, 1 ≤ n ∧ n ≤ API_RETRY_ATTEMPTS ∧ (okBuy2 n).raises = false ∧
      (okBuy2 n).status = 200 ∧ (okBuy2 n).body.successFlag = true ∧
      (buy_stars okBuy2).1.2 = (okBuy2 n).body) ∧
    (buy_stars failBuy).1 = (false, emptyPData) ∧
    (send_message failSend).1 = false :=
  ⟨(claim_C6_api_results okBuy2 failSend).1 (by decide),
   (claim_C6_api_results failBuy failSend).2.1 (fun _ => Or.inl rfl),
   (claim_C6_api_results failBuy failSend).2.2 (fun _ => Or.inl rfl)⟩

/-- C8: in a sync pass, a monitored buyer is cancelled and removed iff
it is absent from the fresh thread listing and its waiting flag is
false; a buyer whose waiting flag is true is always kept, even when
absent from the listing. -/
theorem claim_C8_teardown (fm : FM) (current monitors : List String)
    (b : String) (hb : b ∈ monitors) :
    (b ∈ (teardownPass fm current monitors).2 ↔
      b ∉ current ∧ is_waiting fm b = false) ∧
    (b ∈ (teardownPass fm current monitors).1 ↔
      b ∈ current ∨ is_waiting fm b = true) ∧
    (is_waiting fm b = true → b ∈ (teardownPass fm current monitors).1) := by
  rw [teardownPass_fst, teardownPass_snd]
  refine ⟨?_, ?_, ?_⟩
  · rw [List.mem_filter]
    constructor
    · intro h
      have := h.2
      simp only [Bool.and_eq_true, Bool.not_eq_true'] at this
      exact ⟨by simpa using this.1, this.2⟩
    · intro h
      refine ⟨hb, ?_⟩
      simp only [Bool.and_eq_true, Bool.not_eq_true']
      exact ⟨by simpa using h.1, h.2⟩
  · rw [List.mem_filter]
    constructor
    · intro h
      have := h.2
      simp only [Bool.or_eq_true, decide_eq_true_eq] at this
      exact this
    · intro h
      refine ⟨hb, ?_⟩
      simp only [Bool.or_eq_true, decide_eq_true_eq]
      exact h
  · intro hw
    rw [List.mem_filter]
    exact ⟨hb, by simp [hw]⟩

/-- State store in which buyer `w` is waiting and buyer `g` is not. -/
def fmC8 : FM := ⟨[], [("w", true), ("g", false)], []⟩

/-- Witness for C8: with buyers `w` (waiting) and `g` (not waiting) both
monitored and both absent from the fresh listing, `g` is cancelled and
`w` is kept. -/
theorem claim_C8_teardown_witness :
    ("g" ∈ (teardownPass fmC8 [] ["w", "g"]).2 ∧
      "g" ∉ (teardownPass fmC8 [] ["w", "g"]).1) ∧
    "w" ∈ (teardownPass fmC8 [] ["w", "g"]).1 :=
  ⟨⟨(claim_C8_teardown fmC8 [] ["w", "g"] "g" (by decide)).1.mpr
      (by refine ⟨by decide, by decide⟩),
    fun hmem =>
      by
        have := (claim_C8_teardown fmC8 [] ["w", "g"] "g" (by decide)).2.1.mp hmem
        revert this
        decide⟩,
   (claim_C8_teardown fmC8 [] ["w", "g"] "w" (by decide)).2.2 (by decide)⟩

/-- C4: attaching with stored count `k ≤ N` feeds exactly the elements
at indices `[k:N]` through the state machine, in order, then persists
`N`; a second attach over the same elements (stored count now `N`) feeds
nothing and leaves the machine state unchanged.  Stated for an arbitrary
state-machine step, as the attach logic reads the stored count before
feeding and overwrites it afterwards. -/
theorem claim_C4_attach {σ : Type} (step : String → FM × σ → FM × σ)
    (buyer : String) (current : List String) (s : MonitorSt σ) (k : Nat)
    (hk : get_last_count s.fm buyer = k) (_hkN : k ≤ current.length) :
    ((attach step buyer current s).fed.drop s.fed.length).length
        = current.length - k ∧
    (∀ j, j < current.length - k →
      ((attach step buyer current s).fed.drop s.fed.length)[j]? =
        current[k + j]?) ∧
    get_last_count (attach step buyer current s).fm buyer = current.length ∧
    (attach step buyer current s).lastCount = current.length ∧
    (attach step buyer current (attach step buyer current s)).fed =
      (attach step buyer current s).fed ∧
    (attach step buyer current (attach step buyer current s)).mach =
      (attach step buyer current s).mach := by
  have hfed : (attach step buyer current s).fed = s.fed ++ current.drop k := by
    simp [attach, hk, pySliceFrom, feedSteps_log]
  have hdrop : (attach step buyer current s).fed.drop s.fed.length =
      current.drop k := by
    rw [hfed, List.drop_left]
  have hfm : get_last_count (attach step buyer current s).fm buyer =
      current.length := by
    simp [attach, get_last_count_set_self]
  have h2 : pySliceFrom current
      (get_last_count (attach step buyer current s).fm buyer) = [] := by
    rw [hfm, pySliceFrom, List.drop_length]
  refine ⟨?_, ?_, hfm, rfl, ?_, ?_⟩
  · rw [hdrop, List.length_drop]
  · intro j hj
    rw [hdrop, List.getElem?_drop]
  · conv_lhs => rw [attach, h2]
    simp [feedSteps]
  · conv_lhs => rw [attach, h2]
    simp [feedSteps]

/-- Trivial state-machine step, for concrete monitor runs. -/
def stepId : String → FM × Unit → FM × Unit := fun _ ms => ms

/-- Monitor state for the C4 witness: stored count 1 for buyer `b`. -/
def s4w : MonitorSt Unit := ⟨⟨[("b", 1)], [], []⟩, 0, (), []⟩

/-- Witness for C4 at a two-element thread with stored count 1. -/
theorem claim_C4_attach_witness :
    ((attach stepId "b" ["a", "c"] s4w).fed.drop s4w.fed.length).length = 1 ∧
    ((attach stepId "b" ["a", "c"] s4w).fed.drop s4w.fed.length)[0]? =
      (["a", "c"] : List String)[1]? ∧
    get_last_count (attach stepId "b" ["a", "c"] s4w).fm "b" = 2 ∧
    (attach stepId "b" ["a", "c"] (attach stepId "b" ["a", "c"] s4w)).fed =
      (attach stepId "b" ["a", "c"] s4w).fed := by
  have h := claim_C4_attach stepId "b" ["a", "c"] s4w 1 (by decide)
    (by norm_num)
  exact ⟨h.1, h.2.1 0 (by norm_num), h.2.2.1, h.2.2.2.2.1⟩

/-- Monitor state for the C2 counterexample: stored count 2. -/
def s2c : MonitorSt Unit := ⟨⟨[("b", 2)], [], []⟩, 2, (), []⟩

/-- C2 counterexample: an attach that observes only one element lowers
the stored count from 2 to 1, so the stored last-event count can
decrease across monitor operations. -/
theorem claim_C2_counterexample :
    get_last_count s2c.fm "b" = 2 ∧
    get_last_count (attach stepId "b" ["x"] s2c).fm "b" = 1 := by decide

/-- C2 (amended): the stored count never decreases across poll
operations, nor across attach operations that observe at least as many
elements as the stored count; both re-establish the invariant that the
in-memory `self.last_count` equals the stored count. -/
theorem claim_C2_amended {σ : Type} (step : String → FM × σ → FM × σ)
    (buyer : String) (elems : List String) (s : MonitorSt σ)
    (hinv : s.lastCount = get_last_count s.fm buyer) :
    (get_last_count s.fm buyer ≤
      get_last_count (poll step buyer elems s).fm buyer) ∧
    ((poll step buyer elems s).lastCount =
      get_last_count (poll step buyer elems s).fm buyer) ∧
    (get_last_count s.fm buyer ≤ elems.length →
      get_last_count s.fm buyer ≤
        get_last_count (attach step buyer elems s).fm buyer) ∧
    ((attach step buyer elems s).lastCount =
      get_last_count (attach step buyer elems s).fm buyer) := by
  refine ⟨?_, ?_, ?_, ?_⟩
  · unfold poll
    by_cases h : s.lastCount < elems.length
    · simp only [h, if_pos, get_last_count_set_self]
      exact hinv ▸ le_of_lt h
    · simp [h]
  · unfold poll
    by_cases h : s.lastCount < elems.length
    · simp [h, get_last_count_set_self]
    · rw [if_neg h]; exact hinv
  · intro hle
    unfold attach
    simpa [get_last_count_set_self] using hle
  · unfold attach
    simp [get_last_count_set_self]

/-- Monitor state for the C2 witness: stored count 1, invariant holds. -/
def s2w : MonitorSt Unit := ⟨⟨[("b", 1)], [], []⟩, 1, (), []⟩

/-- Witness for C2 (amended) at a growing two-element thread. -/
theorem claim_C2_amended_witness :
    get_last_count s2w.fm "b" ≤
      get_last_count (poll stepId "b" ["a", "c"] s2w).fm "b" ∧
    get_last_count s2w.fm "b" ≤
      get_last_count (attach stepId "b" ["a", "c"] s2w).fm "b" :=
  ⟨(claim_C2_amended stepId "b" ["a", "c"] s2w (by decide)).1,
   (claim_C2_amended stepId "b" ["a", "c"] s2w (by decide)).2.2.1 (by decide)⟩

/-- C5: for an observed recipient value `v` while waiting, if its hash
equals the stored `(buyer, "user")` fingerprint the iteration is a
no-op (the loop just polls again); otherwise the hash — not the raw
text — is stored as the new fingerprint, and then a value without the
`@` sigil sends the format-error message while waiting continues,
whereas a value with it is stripped and `buy_stars(v[1:], stars)` is
called (recorded in the call trace whether or not the purchase
succeeds). -/
theorem claim_C5_recipient_step (hash : String → String) (buyer : String)
    (stars : Nat) (env : WaitEnv) (fuel i : Nat) (s : HState) (v : String)
    (hw : is_waiting s.fm buyer = true) (hr : env.reads i = some v) :
    (get_last s.fm buyer "user" = some (hash v) →
      waitLoop hash buyer stars env (fuel + 1) i s =
        waitLoop hash buyer stars env fuel (i + 1) s) ∧
    (get_last s.fm buyer "user" ≠ some (hash v) →
      get_last (set_last s.fm buyer "user" (hash v)) buyer "user" =
          some (hash v) ∧
      (pyStartsWith v "@" = false →
        waitLoop hash buyer stars env (fuel + 1) i s =
          waitLoop hash buyer stars env fuel (i + 1)
            { s with fm := set_last s.fm buyer "user" (hash v),
                     sent := s.sent ++ [(buyer, formatErrMsg)] } ∧
        is_waiting (set_last s.fm buyer "user" (hash v)) buyer = true) ∧
      (pyStartsWith v "@" = true → (env.buyOutcome s.buys.length).1 = false →
        waitLoop hash buyer stars env (fuel + 1) i s =
          waitLoop hash buyer stars env fuel (i + 1)
            { s with fm := set_last s.fm buyer "user" (hash v),
                     buys := s.buys ++ [(pyDrop1 v, stars)] }) ∧
      (pyStartsWith v "@" = true → (env.buyOutcome s.buys.length).1 = true →
        waitLoop hash buyer stars env (fuel + 1) i s =
          .completed { s with
            fm := set_waiting (set_last s.fm buyer "user" (hash v)) buyer false,
            buys := s.buys ++ [(pyDrop1 v, stars)],
            sent := s.sent ++ [(buyer,
              completionMsg stars (pyDrop1 v) (env.buyOutcome s.buys.length).2)],
            clicks := s.clicks ++ [env.clickOk s.clicks.length] })) := by
  constructor
  · intro hfp
    simp [waitLoop, hw, hr, hfp]
  · intro hfp
    refine ⟨get_last_set_self s.fm buyer "user" (hash v), ?_, ?_, ?_⟩
    · intro hat
      constructor
      · simp [waitLoop, hw, hr, hfp, hat]
      · rw [is_waiting_set_last]; exact hw
    · intro hat hok
      simp [waitLoop, hw, hr, hfp, hat, hok]
    · intro hat hok
      simp [waitLoop, hw, hr, hfp, hat, hok]

/-- Identity stand-in for the opaque content hash in concrete runs. -/
def idHash : String → String := fun v => v

/-- Environment for the C5 witness: the recipient field always shows
`alice` (no sigil) and purchases fail. -/
def env5 : WaitEnv := ⟨fun _ => some "alice", fun _ => (false, none), fun _ => true⟩

/-- Waiting-state start for the C5 witness. -/
def s5 : HState := ⟨⟨[], [("b", true)], []⟩, false, [], [], []⟩

/-- Witness for C5: a changed sigil-free value stores the new
fingerprint, sends the format error and keeps waiting. -/
theorem claim_C5_recipient_step_witness :
    (waitLoop idHash "b" 50 env5 1 0 s5 =
      waitLoop idHash "b" 50 env5 0 1
        { s5 with fm := set_last s5.fm "b" "user" (idHash "alice"),
                  sent := s5.sent ++ [("b", formatErrMsg)] } ∧
      is_waiting (set_last s5.fm "b" "user" (idHash "alice")) "b" = true) :=
  (((claim_C5_recipient_step idHash "b" 50 env5 0 0 s5 "alice"
    (by decide) rfl).2 (by decide)).2.1 (by decide))

/-- C7: when the purchase succeeds, the waiting loop returns through the
success branch: the completion message naming the quantity and the
transaction hash from the purchase payload is sent and the waiting flag
is cleared — for every outcome of the caught post-purchase confirmation
workflow (the `clickOk` oracle only lands in the ghost click log, so a
failing confirmation step changes nothing else). -/
theorem claim_C7_completion (hash : String → String) (buyer : String)
    (stars : Nat) (env : WaitEnv) (fuel i : Nat) (s : HState) (v : String)
    (hw : is_waiting s.fm buyer = true) (hr : env.reads i = some v)
    (hfp : get_last s.fm buyer "user" ≠ some (hash v))
    (hat : pyStartsWith v "@" = true)
    (hok : (env.buyOutcome s.buys.length).1 = true) :
    waitLoop hash buyer stars env (fuel + 1) i s =
      .completed { s with
        fm := set_waiting (set_last s.fm buyer "user" (hash v)) buyer false,
        buys := s.buys ++ [(pyDrop1 v, stars)],
        sent := s.sent ++ [(buyer,
          completionMsg stars (pyDrop1 v) (env.buyOutcome s.buys.length).2)],
        clicks := s.clicks ++ [env.clickOk s.clicks.length] } ∧
    is_waiting (set_waiting (set_last s.fm buyer "user" (hash v)) buyer false)
      buyer = false ∧
    containsSub
      (completionMsg stars (pyDrop1 v) (env.buyOutcome s.buys.length).2).data
      (toString stars).data = true ∧
    (∀ h, (env.buyOutcome s.buys.length).2 = some h →
      containsSub
        (completionMsg stars (pyDrop1 v) (env.buyOutcome s.buys.length).2).data
        h.data = true) := by
  refine ⟨?_, ?_, ?_, ?_⟩
  · simp [waitLoop, hw, hr, hfp, hat, hok]
  · rw [is_waiting_set_self]
  · have hdata :
        (completionMsg stars (pyDrop1 v) (env.buyOutcome s.buys.length).2).data =
          "⭐ Заказ выполнен: ".data ++ (toString stars).data ++
            (" звёзд отправлены на @" ++ pyDrop1 v ++ ". Hash: " ++
              pyShow (env.buyOutcome s.buys.length).2).data := by
      simp [completionMsg, String.data_append]
    rw [hdata]
    exact containsSub_of_middle _ _ _
  · intro h htx
    have hdata2 :
        (completionMsg stars (pyDrop1 v) (env.buyOutcome s.buys.length).2).data =
          ("⭐ Заказ выполнен: " ++ toString stars ++ " звёзд отправлены на @"
            ++ pyDrop1 v ++ ". Hash: ").data ++ h.data ++ [] := by
      rw [completionMsg, htx]
      simp [pyShow, String.data_append]
    rw [hdata2]
    exact containsSub_of_middle _ _ _

/-- Environment for the C7 witness: valid recipient, successful
purchase with hash `deadbeef`, and a post-purchase confirmation
workflow that fails. -/
def env7 : WaitEnv :=
  ⟨fun _ => some "@alice", fun _ => (true, some "deadbeef"), fun _ => false⟩

/-- Waiting-state start for the C7 witness. -/
def s7 : HState := ⟨⟨[], [("b", true)], []⟩, false, [], [], []⟩

/-- Witness for C7 with a failing confirmation workflow. -/
theorem claim_C7_completion_witness :
    waitLoop idHash "b" 100 env7 1 0 s7 =
      .completed { s7 with
        fm := set_waiting (set_last s7.fm "b" "user" (idHash "@alice")) "b" false,
        buys := s7.buys ++ [(pyDrop1 "@alice", 100)],
        sent := s7.sent ++ [("b",
          completionMsg 100 (pyDrop1 "@alice") (env7.buyOutcome s7.buys.length).2)],
        clicks := s7.clicks ++ [env7.clickOk s7.clicks.length] } ∧
    is_waiting (set_waiting (set_last s7.fm "b" "user" (idHash "@alice")) "b"
      false) "b" = false ∧
    containsSub
      (completionMsg 100 (pyDrop1 "@alice") (env7.buyOutcome s7.buys.length).2).data
      (toString 100).data = true ∧
    containsSub
      (completionMsg 100 (pyDrop1 "@alice") (env7.buyOutcome s7.buys.length).2).data
      "deadbeef".data = true := by
  have h := claim_C7_completion idHash "b" 100 env7 0 0 s7 "@alice"
    (by decide) rfl (by decide) (by decide) rfl
  exact ⟨h.1, h.2.1, h.2.2.1, h.2.2.2 "deadbeef" rfl⟩

/-- Environment whose recipient field is always empty. -/
def env9 : WaitEnv := ⟨fun _ => none, fun _ => (false, none), fun _ => true⟩

/-- Idle machine state with no pending payment. -/
def s9 : HState := ⟨⟨[], [], []⟩, false, [], [], []⟩

/-- C9 counterexample: the line `Оплатил покупку 100 звезд` matches the
quantity pattern, yet handling it with the pending-payment flag false is
not a no-op — it contains the payment phrase, so the handler sets the
pending flag before ever reaching the quantity check. -/
theorem claim_C9_counterexample :
    searchStars (normalizeText "Оплатил покупку 100 звезд").data = some 100 ∧
    s9.payment_pending = false ∧
    handle idHash "b" env9 1 "Оплатил покупку 100 звезд" s9 =
      .pre { s9 with payment_pending := true } ∧
    ({ s9 with payment_pending := true } : HState) ≠ s9 := by decide

/-- C9 (amended): a line containing the payment phrase only sets the
pending-payment flag and makes no external call; a line matching the
quantity pattern that does not contain the payment phrase, handled while
the pending flag is false, is a complete no-op. -/
theorem claim_C9_amended (hash : String → String) (buyer : String)
    (env : WaitEnv) (fuel : Nat) (t : String) (s : HState) (q : Nat) :
    (containsSub (normalizeText t).data paymentPhrase.data = true →
      handle hash buyer env fuel t s = .pre { s with payment_pending := true }) ∧
    (containsSub (normalizeText t).data paymentPhrase.data = false →
      searchStars (normalizeText t).data = some q →
      s.payment_pending = false →
      handle hash buyer env fuel t s = .pre s) := by
  constructor
  · intro h
    simp [handle, h]
  · intro h1 h2 h3
    simp [handle, h1, h2, h3]

/-- Witness for C9 (amended) at the two relevant concrete lines. -/
theorem claim_C9_amended_witness :
    handle idHash "b" env9 1 "Оплатил покупку" s9 =
      .pre { s9 with payment_pending := true } ∧
    handle idHash "b" env9 1 "100 звезд" s9 = .pre s9 :=
  ⟨(claim_C9_amended idHash "b" env9 1 "Оплатил покупку" s9 0).1 (by decide),
   (claim_C9_amended idHash "b" env9 1 "100 звезд" s9 100).2
     (by decide) (by decide) rfl⟩

/-- Environment for the C1 counterexample: the recipient field shows
`@alice` then `@bob`; the first purchase fails and the second
succeeds. -/
def env1 : WaitEnv :=
  ⟨fun i => if i = 0 then some "@alice" else if i = 1 then some "@bob" else none,
   fun c => if c = 0 then (false, none) else (true, some "h"),
   fun _ => true⟩

/-- Waiting-state start for the C1 counterexample. -/
def s1c : HState := ⟨⟨[], [("b", true)], []⟩, false, [], [], []⟩

/-- C1 counterexample: within one false→true→false waiting-flag cycle
(entered waiting, exited via the success branch), two distinct observed
recipient values issue two `buy_stars` calls — the first fails, the flag
stays true, and the changed value triggers a second call.  So "exactly
one purchase call per cycle" fails; deduplication only suppresses
repeats of an unchanged value. -/
theorem claim_C1_counterexample :
    is_waiting s1c.fm "b" = true ∧
    (waitLoop idHash "b" 100 env1 4 0 s1c).isCompleted = true ∧
    is_waiting (waitLoop idHash "b" 100 env1 4 0 s1c).state.fm "b" = false ∧
    (waitLoop idHash "b" 100 env1 4 0 s1c).state.buys =
      [("alice", 100), ("bob", 100)] := by decide

/-- C1 (amended): fingerprint deduplication suppresses repeats — an
iteration that reads a value whose hash equals the stored fingerprint
issues no call and changes nothing — and when the first purchase call of
the cycle succeeds, a waiting cycle that completes issues exactly one
purchase call.  After a failed call the flag stays true and a later
changed value may issue a further call in the same cycle, as the
counterexample shows. -/
theorem claim_C1_amended (hash : String → String) (buyer : String)
    (stars : Nat) (env : WaitEnv) (fuel i : Nat) (s : HState) :
    (∀ v, env.reads i = some v →
      get_last s.fm buyer "user" = some (hash v) →
      is_waiting s.fm buyer = true →
      waitLoop hash buyer stars env (fuel + 1) i s =
        waitLoop hash buyer stars env fuel (i + 1) s) ∧
    (s.buys = [] → (env.buyOutcome 0).1 = true →
      ∀ t, waitLoop hash buyer stars env fuel i s = .completed t →
        t.buys.length = 1) := by
  constructor
  · intro v hr hfp hw
    simp [waitLoop, hw, hr, hfp]
  · induction fuel generalizing i s with
    | zero =>
      intro _ _ t ht
      exact absurd ht (by simp [waitLoop])
    | succ n ih =>
      intro hb hok t ht
      cases hw : is_waiting s.fm buyer with
      | false =>
        rw [waitLoop] at ht
        simp [hw] at ht
      | true =>
        cases hr : env.reads i with
        | none =>
          simp only [waitLoop, hw, hr, if_true] at ht
          exact ih (i + 1) s hb hok t ht
        | some v =>
          by_cases hfp : get_last s.fm buyer "user" = some (hash v)
          · simp only [waitLoop, hw, hr, if_true, if_pos hfp] at ht
            exact ih (i + 1) s hb hok t ht
          · cases hat : pyStartsWith v "@" with
            | false =>
              simp only [waitLoop, hw, hr, if_true, if_neg hfp, hat,
                Bool.false_eq_true, if_false] at ht
              refine ih (i + 1) _ ?_ hok t ht
              exact hb
            | true =>
              have hidx : ({ s with fm := set_last s.fm buyer "user" (hash v) }
                  : HState).buys.length = 0 := by simp [hb]
              simp only [waitLoop, hw, hr, if_true, if_neg hfp, hat, if_false,
                hidx, hok] at ht
              injection ht with h
              rw [← h]
              simp [hb]

/-- Environment for the C1 witness: constant recipient `@carol`,
purchases always succeed. -/
def env1w : WaitEnv :=
  ⟨fun _ => some "@carol", fun _ => (true, some "h2"), fun _ => true⟩

/-- Waiting-state start for the C1 witness. -/
def s1w : HState := ⟨⟨[], [("b", true)], []⟩, false, [], [], []⟩

/-- Waiting state whose stored fingerprint already matches `@carol`. -/
def s1d : HState :=
  ⟨⟨[], [("b", true)], [(lastKey "b" "user", "@carol")]⟩, false, [], [], []⟩

/-- Witness for C1 (amended): an unchanged value is skipped, and a
first-call-success cycle makes exactly one purchase call. -/
theorem claim_C1_amended_witness :
    waitLoop idHash "b" 10 env1w 1 0 s1d =
      waitLoop idHash "b" 10 env1w 0 1 s1d ∧
    ((waitLoop idHash "b" 10 env1w 2 0 s1w).state).buys.length = 1 :=
  ⟨(claim_C1_amended idHash "b" 10 env1w 0 0 s1d).1 "@carol" rfl
      (by decide) (by decide),
   (claim_C1_amended idHash "b" 10 env1w 2 0 s1w).2 rfl rfl
      (waitLoop idHash "b" 10 env1w 2 0 s1w).state rfl⟩

/-- C10: once the recipient-waiting loop runs with the waiting flag
true, it never exits through the `while` condition; the only normal exit
is the purchase-success branch, whose final state has the flag false and
strictly more purchase calls, the last of which succeeded.  Purchase
failures and malformed identifiers only recurse.  In every outcome
(including fuel exhaustion, which models the loop still polling) the
stored event counts `chat_states` are untouched, so the monitor cannot
advance the stored count while the loop runs. -/
theorem claim_C10_loop (hash : String → String) (buyer : String)
    (stars : Nat) (env : WaitEnv) (fuel i : Nat) (s : HState) :
    (is_waiting s.fm buyer = true →
      ∀ t, waitLoop hash buyer stars env fuel i s ≠ .condExit t) ∧
    (∀ t, waitLoop hash buyer stars env fuel i s = .completed t →
      is_waiting t.fm buyer = false ∧
      s.buys.length < t.buys.length ∧
      (env.buyOutcome (t.buys.length - 1)).1 = true) ∧
    (waitLoop hash buyer stars env fuel i s).state.fm.chat_states =
      s.fm.chat_states := by
  induction fuel generalizing i s with
  | zero =>
    refine ⟨?_, ?_, rfl⟩
    · intro _ t h
      simp [waitLoop] at h
    · intro t ht
      exact absurd ht (by simp [waitLoop])
  | succ n ih =>
    cases hw : is_waiting s.fm buyer with
    | false =>
      have e : waitLoop hash buyer stars env (n + 1) i s = .condExit s := by
        simp [waitLoop, hw]
      refine ⟨?_, ?_, ?_⟩
      · intro hw2 t
        exact absurd hw2 (by simp)
      · intro t ht
        rw [e] at ht
        exact absurd ht (by simp)
      · rw [e]
        rfl
    | true =>
      cases hr : env.reads i with
      | none =>
        have e : waitLoop hash buyer stars env (n + 1) i s =
            waitLoop hash buyer stars env n (i + 1) s := by
          simp [waitLoop, hw, hr]
        obtain ⟨ih1, ih2, ih3⟩ := ih (i + 1) s
        refine ⟨?_, ?_, ?_⟩
        · intro _ t
          rw [e]
          exact ih1 hw t
        · intro t ht
          rw [e] at ht
          exact ih2 t ht
        · rw [e]
          exact ih3
      | some v =>
        by_cases hfp : get_last s.fm buyer "user" = some (hash v)
        · have e : waitLoop hash buyer stars env (n + 1) i s =
              waitLoop hash buyer stars env n (i + 1) s := by
            simp [waitLoop, hw, hr, hfp]
          obtain ⟨ih1, ih2, ih3⟩ := ih (i + 1) s
          refine ⟨?_, ?_, ?_⟩
          · intro _ t
            rw [e]
            exact ih1 hw t
          · intro t ht
            rw [e] at ht
            exact ih2 t ht
          · rw [e]
            exact ih3
        · cases hat : pyStartsWith v "@" with
          | false =>
            have e : waitLoop hash buyer stars env (n + 1) i s =
                waitLoop hash buyer stars env n (i + 1)
                  { s with fm := set_last s.fm buyer "user" (hash v),
                           sent := s.sent ++ [(buyer, formatErrMsg)] } := by
              simp [waitLoop, hw, hr, hfp, hat]
            obtain ⟨ih1, ih2, ih3⟩ := ih (i + 1)
              { s with fm := set_last s.fm buyer "user" (hash v),
                       sent := s.sent ++ [(buyer, formatErrMsg)] }
            refine ⟨?_, ?_, ?_⟩
            · intro _ t
              rw [e]
              exact ih1 hw t
            · intro t ht
              rw [e] at ht
              exact ih2 t ht
            · rw [e]
              exact ih3
          | true =>
            cases hok : (env.buyOutcome s.buys.length).1 with
            | false =>
              have e : waitLoop hash buyer stars env (n + 1) i s =
                  waitLoop hash buyer stars env n (i + 1)
                    { s with fm := set_last s.fm buyer "user" (hash v),
                             buys := s.buys ++ [(pyDrop1 v, stars)] } := by
                simp [waitLoop, hw, hr, hfp, hat, hok]
              obtain ⟨ih1, ih2, ih3⟩ := ih (i + 1)
                { s with fm := set_last s.fm buyer "user" (hash v),
                         buys := s.buys ++ [(pyDrop1 v, stars)] }
              refine ⟨?_, ?_, ?_⟩
              · intro _ t
                rw [e]
                exact ih1 hw t
              · intro t ht
                rw [e] at ht
                obtain ⟨h1, h2, h3⟩ := ih2 t ht
                have hlt : s.buys.length <
                    (s.buys ++ [(pyDrop1 v, stars)]).length := by simp
                exact ⟨h1, lt_trans hlt h2, h3⟩
              · rw [e]
                exact ih3
            | true =>
              have e : waitLoop hash buyer stars env (n + 1) i s =
                  .completed { s with
                    fm := set_waiting (set_last s.fm buyer "user" (hash v))
                      buyer false,
                    buys := s.buys ++ [(pyDrop1 v, stars)],
                    sent := s.sent ++ [(buyer, completionMsg stars (pyDrop1 v)
                      (env.buyOutcome s.buys.length).2)],
                    clicks := s.clicks ++ [env.clickOk s.clicks.length] } := by
                simp [waitLoop, hw, hr, hfp, hat, hok]
              refine ⟨?_, ?_, ?_⟩
              · intro _ t
                rw [e]
                simp
              · intro t ht
                rw [e] at ht
                injection ht with h
                rw [← h]
                refine ⟨is_waiting_set_self _ _ _, by simp, ?_⟩
                have hidx : (s.buys ++ [(pyDrop1 v, stars)]).length - 1 =
                    s.buys.length := by simp
                rw [hidx]
                exact hok
              · rw [e]
                rfl

/-- Witness for C10 at a concrete completing run. -/
theorem claim_C10_loop_witness :
    waitLoop idHash "b" 10 env1w 2 0 s1w ≠
      .condExit (waitLoop idHash "b" 10 env1w 2 0 s1w).state ∧
    is_waiting ((waitLoop idHash "b" 10 env1w 2 0 s1w).state).fm "b" = false ∧
    (waitLoop idHash "b" 10 env1w 2 0 s1w).state.fm.chat_states =
      s1w.fm.chat_states := by
  have h := claim_C10_loop idHash "b" 10 env1w 2 0 s1w
  exact ⟨h.1 (by decide) _, (h.2.1 _ rfl).1, h.2.2⟩
